import Mathlib

/-
Verification of the CIDR validation / normalization pipeline of
aws-simple-form-web-app (src/cdk/bin/cdk.ts), of the family classifier of
src/cdk/lib/ip-set-construct.ts, and of the survey request handler of
src/lambda/src/handler.ts.  JavaScript strings are modelled as lists of
characters; the JavaScript library routines used by the source (split,
includes, trim, regular-expression tests, Number) are modelled explicitly
below with their JavaScript semantics.
-/

set_option maxHeartbeats 1000000

/-- Characters of a JavaScript string, modelled as a list of Unicode characters. -/
abbrev Str : Type := List Char

/-- View a Lean string literal as a JavaScript string value. -/
def str (s : String) : Str := s.data

/-- JavaScript String.prototype.split with a one-character separator:
"a.b".split(".") gives ["a","b"], "".split(".") gives [""], and a separator at
either end produces an empty fragment there. -/
def splitOnChar (sep : Char) : Str → List Str
  | [] => [[]]
  | c :: rest =>
    if c = sep then [] :: splitOnChar sep rest
    else
      match splitOnChar sep rest with
      | [] => [[c]]
      | h :: t => (c :: h) :: t

/-- JavaScript String.prototype.includes for a one-character needle. -/
def hasChar (c : Char) : Str → Bool
  | [] => false
  | x :: rest => decide (x = c) || hasChar c rest

/-- Value of JavaScript Number(p) for a string p of decimal digits. -/
def strNum (p : Str) : Nat :=
  p.foldl (fun a c => a * 10 + (c.toNat - ('0').toNat)) 0

/-- Test for the JavaScript regex /^\d{1,len}$/: one to len decimal digits. -/
def digitsLenOk (len : Nat) (p : Str) : Bool :=
  decide (1 ≤ p.length) && decide (p.length ≤ len) && p.all Char.isDigit

/-- Per-octet check of isIpv4 (src/cdk/bin/cdk.ts lines 9-13): the part matches
/^\d{1,3}$/ and its numeric value is at most 255 (a natural number, so the
source's n >= 0 conjunct always holds). -/
def ipv4PartOk (p : Str) : Bool := digitsLenOk 3 p && decide (strNum p ≤ 255)

/-- isIpv4 from src/cdk/bin/cdk.ts lines 5-14: split on '.', require exactly
four parts, each a 1-3 digit number in [0,255]. -/
def isIpv4 (ip : Str) : Bool :=
  decide ((splitOnChar '.' ip).length = 4) && (splitOnChar '.' ip).all ipv4PartOk

/-- isValidIpv4Cidr from src/cdk/bin/cdk.ts lines 16-23.  The JavaScript
destructuring const [ip, mask] = cidr.split('/') binds the first two fragments
and ignores any further ones; mask is undefined exactly when no '/' occurs. -/
def isValidIpv4Cidr (cidr : Str) : Bool :=
  match (splitOnChar '/' cidr).get? 1 with
  | none => false
  | some mask =>
    decide ((splitOnChar '/' cidr).headD [] ≠ []) &&
    isIpv4 ((splitOnChar '/' cidr).headD []) &&
    digitsLenOk 2 mask && decide (strNum mask ≤ 32)

/-- Number of non-overlapping occurrences of "::", found left to right, as the
JavaScript expression ip.match(/::/g) counts them. -/
def countDC : Str → Nat
  | ':' :: ':' :: rest => countDC rest + 1
  | _ :: rest => countDC rest
  | [] => 0

/-- Test for the JavaScript regex /^[0-9a-fA-F]{1,4}$/ on one character. -/
def isHexDig (c : Char) : Bool :=
  c.isDigit || (decide ('a' ≤ c) && decide (c ≤ 'f')) || (decide ('A' ≤ c) && decide (c ≤ 'F'))

/-- Group check of isIpv6: one to four hexadecimal digits. -/
def hexOk (p : Str) : Bool :=
  decide (1 ≤ p.length) && decide (p.length ≤ 4) && p.all isHexDig

/-- Body of the validation loop of isIpv6 (src/cdk/bin/cdk.ts lines 41-67) at
index i.  In the source every path of the empty-part branch (lines 46-54) ends
in continue, so that branch accepts regardless of position; the nested position
test is kept here to mirror the source text. -/
def ipv6PartAt (parts : List Str) (i : Nat) : Bool :=
  if parts.getD i [] = [] then
    if i ≠ 0 ∧ i ≠ parts.length - 1 then
      if i = 0 ∨ (parts.getD (i - 1) [] ≠ [] ∧ parts.getD (i + 1) [] ≠ []) then true
      else true
    else true
  else if hasChar '.' (parts.getD i []) then
    if i = parts.length - 1 then isIpv4 (parts.getD i []) else false
  else hexOk (parts.getD i [])

/-- isIpv6 from src/cdk/bin/cdk.ts lines 25-70: split on ':'; the part count
must lie in [3,8]; when more than one part is empty the whole string must
contain exactly one non-overlapping occurrence of "::"; then every part must
pass the loop body ipv6PartAt. -/
def isIpv6 (ip : Str) : Bool :=
  if (splitOnChar ':' ip).length < 3 ∨ 8 < (splitOnChar ':' ip).length then false
  else if 1 < ((splitOnChar ':' ip).filter (fun p => decide (p = []))).length ∧ countDC ip ≠ 1 then
    false
  else (List.range (splitOnChar ':' ip).length).all (fun i => ipv6PartAt (splitOnChar ':' ip) i)

/-- isValidIpv6Cidr from src/cdk/bin/cdk.ts lines 72-79; same destructuring of
cidr.split('/') as the IPv4 variant, mask matching /^\d{1,3}$/ and at most 128. -/
def isValidIpv6Cidr (cidr : Str) : Bool :=
  match (splitOnChar '/' cidr).get? 1 with
  | none => false
  | some mask =>
    decide ((splitOnChar '/' cidr).headD [] ≠ []) &&
    isIpv6 ((splitOnChar '/' cidr).headD []) &&
    digitsLenOk 3 mask && decide (strNum mask ≤ 128)

/-- isValidIpCidr from src/cdk/bin/cdk.ts lines 81-83. -/
def isValidIpCidr (cidr : Str) : Bool :=
  isValidIpv4Cidr cidr || isValidIpv6Cidr cidr

/-- JavaScript String.prototype.trim, modelled over the common whitespace
characters space, tab, carriage return and line feed. -/
def trimStr (s : Str) : Str :=
  ((s.dropWhile Char.isWhitespace).reverse.dropWhile Char.isWhitespace).reverse

/-- Error text thrown at src/cdk/bin/cdk.ts lines 93-95 (malformed explicit CIDR). -/
def msgMalformedCidr (got : Str) : Str :=
  str ("ALLOWED_IP_CIDR must be a valid IPv4 CIDR (e.g., \"203.0.113.7/32\") or IPv6 CIDR (e.g., \"2001:db8::1/128\"). Got: ") ++ got

/-- Error text thrown at src/cdk/bin/cdk.ts lines 104-106 (bare input with '/'
that fails CIDR validation). -/
def msgMalformedIpAsCidr (got : Str) : Str :=
  str ("ALLOWED_IP appears to be a CIDR but is invalid. Provide a valid IPv4 CIDR (e.g., \"203.0.113.7/32\") or IPv6 CIDR (e.g., \"2001:db8::1/128\"). Got: ") ++ got

/-- Error text thrown at src/cdk/bin/cdk.ts lines 117-119 (bare input matching
neither family). -/
def msgMalformedAddress (got : Str) : Str :=
  str ("ALLOWED_IP must be a valid IPv4 or IPv6 address. Got: ") ++ got

/-- Error text thrown at src/cdk/bin/cdk.ts line 123 (no input supplied). -/
def msgMissingConfig : Str :=
  str ("ALLOWED_IP_CIDR (or ALLOWED_IP) environment variable must be set to deploy the stack.")

/-- resolveAllowedIpCidr from src/cdk/bin/cdk.ts lines 85-125, as a pure
function of the two environment inputs ALLOWED_IP_CIDR and ALLOWED_IP (an
absent variable is the empty string, as process.env.X || '' yields); a thrown
Error is modelled as Except.error carrying the message. -/
def resolveAllowedIpCidr (aEnv bEnv : Str) : Except Str Str :=
  if trimStr aEnv ≠ [] then
    if isValidIpCidr (trimStr aEnv) = true then Except.ok (trimStr aEnv)
    else Except.error (msgMalformedCidr (trimStr aEnv))
  else if trimStr bEnv ≠ [] then
    if hasChar '/' (trimStr bEnv) = true then
      if isValidIpCidr (trimStr bEnv) = true then Except.ok (trimStr bEnv)
      else Except.error (msgMalformedIpAsCidr (trimStr bEnv))
    else if isIpv4 (trimStr bEnv) = true then Except.ok (trimStr bEnv ++ str ("/32"))
    else if isIpv6 (trimStr bEnv) = true then Except.ok (trimStr bEnv ++ str ("/128"))
    else Except.error (msgMalformedAddress (trimStr bEnv))
  else Except.error msgMissingConfig

/-- Address family tag of aws-cdk-lib wafv2, 'IPV4' or 'IPV6'. -/
inductive IpVersion : Type
  | v4
  | v6
deriving DecidableEq

/-- getIpAddressVersion from src/cdk/lib/ip-set-construct.ts lines 29-32:
classify by the presence of a colon. -/
def getIpAddressVersion (cidr : Str) : IpVersion :=
  if hasChar ':' cidr = true then IpVersion.v6 else IpVersion.v4

/-- JSON values, the possible results of the JavaScript runtime's
JSON.parse (which is not repository code and is modelled by its result). -/
inductive Json : Type
  | null
  | bool (b : Bool)
  | num (n : Int)
  | strv (s : Str)
  | arr (elems : List Json)
  | obj (fields : List (Str × Json))

/-- Object field lookup with JSON.parse duplicate-key semantics: the last
occurrence of a key wins. -/
def lookupLast (key : Str) : List (Str × Json) → Option Json
  | [] => none
  | kv :: rest =>
    match lookupLast key rest with
    | some v => some v
    | none => if kv.1 = key then some kv.2 else none

/-- JavaScript property access body.flavor on a parsed JSON value: throws a
TypeError on null (Except.error), yields undefined (none) on primitives and
arrays, and looks the key up on objects. -/
def flavorGet : Json → Except Unit (Option Json)
  | Json.null => Except.error ()
  | Json.obj fields => Except.ok (lookupLast (str ("flavor")) fields)
  | _ => Except.ok none

/-- JavaScript truthiness of body.flavor (undefined is none). -/
def truthy : Option Json → Bool
  | none => false
  | some Json.null => false
  | some (Json.bool b) => b
  | some (Json.num n) => decide (n ≠ 0)
  | some (Json.strv s) => decide (s ≠ [])
  | some (Json.arr _) => true
  | some (Json.obj _) => true

/-- ALLOWED_FLAVORS from src/lambda/src/handler.ts line 3. -/
def allowedFlavors : List Str :=
  [str ("vanilla"), str ("chocolate"), str ("strawberry"), str ("mint"), str ("cookie-dough")]

/-- ALLOWED_FLAVORS.includes(body.flavor): Array.prototype.includes compares
with ===, so only an equal string member matches. -/
def flavorIncluded : Option Json → Bool
  | some (Json.strv s) => allowedFlavors.contains s
  | _ => false

/-- String content of the flavor value; in the success branch of the handler
it is guaranteed to be a string. -/
def flavorStrOf : Option Json → Str
  | some (Json.strv s) => s
  | _ => []

/-- Result of the handler: HTTP status code and response body
(src/lambda/src/handler.ts; the CORS headers are not modelled). -/
structure HandlerResponse : Type where
  statusCode : Nat
  body : Str
deriving DecidableEq

/-- Body JSON.stringify({ error: 'Invalid flavor', allowed: ALLOWED_FLAVORS })
from src/lambda/src/handler.ts line 42. -/
def invalidFlavorBody : Str :=
  str ("\x7b\"error\":\"Invalid flavor\",\"allowed\":[\"vanilla\",\"chocolate\",\"strawberry\",\"mint\",\"cookie-dough\"]\x7d")

/-- Body JSON.stringify({ ok: true, message }) from src/lambda/src/handler.ts
lines 46-54, with the template literal of line 46 spliced in. -/
def okBody (flavor : Str) : Str :=
  str ("\x7b\"ok\":true,\"message\":\"Yum! You picked ") ++ flavor ++ str (" 🍨\"\x7d")

/-- Body JSON.stringify({ error: 'Server error' }) from src/lambda/src/handler.ts
line 63. -/
def serverErrorBody : Str :=
  str ("\x7b\"error\":\"Server error\"\x7d")

/-- handler from src/lambda/src/handler.ts lines 20-67, as a function of the
outcome of JSON.parse on the request body: none models a body that fails to
parse (the inner catch, line 27), and the TypeError thrown by accessing
.flavor on a parsed null is caught by the outer catch (line 57). -/
def handler : Option Json → HandlerResponse
  | none => HandlerResponse.mk 400 []
  | some body =>
    match flavorGet body with
    | Except.error _ => HandlerResponse.mk 500 serverErrorBody
    | Except.ok fl =>
      if truthy fl && flavorIncluded fl then
        HandlerResponse.mk 200 (okBody (flavorStrOf fl))
      else HandlerResponse.mk 400 invalidFlavorBody

/-- Inverse of splitOnChar: interleave the separator back between fragments. -/
def joinSep (sep : Char) : List Str → Str
  | [] => []
  | [p] => p
  | p :: rest => p ++ sep :: joinSep sep rest

/-- Does the second string start with the first one. -/
def hasAtFront : Str → Str → Bool
  | [], _ => true
  | _ :: _, [] => false
  | a :: as, b :: bs => decide (a = b) && hasAtFront as bs

/-- JavaScript String.prototype.includes: does the needle occur contiguously
somewhere in the haystack. -/
def containsSub (needle : Str) : Str → Bool
  | [] => hasAtFront needle []
  | c :: rest => hasAtFront needle (c :: rest) || containsSub needle rest

/-- splitOnChar never returns the empty list of fragments. -/
theorem splitOnChar_ne_nil (sep : Char) (l : Str) : splitOnChar sep l ≠ [] := by
  induction l with
  | nil => simp [splitOnChar]
  | cons c rest ih =>
    by_cases hc : c = sep
    · simp [splitOnChar, hc]
    · cases h : splitOnChar sep rest with
      | nil => exact absurd h ih
      | cons p t => simp [splitOnChar, hc, h]

/-- Splitting a string free of the separator yields the one-fragment list. -/
theorem splitOnChar_of_not_mem (sep : Char) (l : Str) (h : sep ∉ l) :
    splitOnChar sep l = [l] := by
  induction l with
  | nil => simp [splitOnChar]
  | cons c rest ih =>
    have hc : ¬ c = sep := fun he => h (he ▸ List.mem_cons_self c rest)
    have hrest : sep ∉ rest := fun hm => h (List.mem_cons_of_mem c hm)
    simp [splitOnChar, hc, ih hrest]

/-- Equation for splitOnChar at a separator character. -/
theorem splitOnChar_cons_sep (sep : Char) (l : Str) :
    splitOnChar sep (sep :: l) = [] :: splitOnChar sep l := by
  simp [splitOnChar]

/-- Equation for splitOnChar at a non-separator character. -/
theorem splitOnChar_cons_ne (sep c : Char) (l : Str) (hc : ¬ c = sep) :
    splitOnChar sep (c :: l) =
      (c :: (splitOnChar sep l).headD []) :: (splitOnChar sep l).tail := by
  cases h : splitOnChar sep l with
  | nil => exact absurd h (splitOnChar_ne_nil sep l)
  | cons p t => simp [splitOnChar, hc, h]

/-- Splitting past a separator that does not occur in the first half. -/
theorem splitOnChar_append_cons (sep : Char) (l₁ l₂ : Str) (h : sep ∉ l₁) :
    splitOnChar sep (l₁ ++ sep :: l₂) = l₁ :: splitOnChar sep l₂ := by
  induction l₁ with
  | nil => simp [splitOnChar]
  | cons c rest ih =>
    have hc : ¬ c = sep := fun he => h (he ▸ List.mem_cons_self c rest)
    have hrest : sep ∉ rest := fun hm => h (List.mem_cons_of_mem c hm)
    rw [List.cons_append, splitOnChar_cons_ne sep c _ hc, ih hrest]
    simp

/-- joinSep undoes splitOnChar. -/
theorem joinSep_splitOnChar (sep : Char) (l : Str) :
    joinSep sep (splitOnChar sep l) = l := by
  induction l with
  | nil => simp [splitOnChar, joinSep]
  | cons c rest ih =>
    by_cases hc : c = sep
    · subst hc
      cases hsp : splitOnChar c rest with
      | nil => exact absurd hsp (splitOnChar_ne_nil c rest)
      | cons p t =>
        rw [hsp] at ih
        rw [splitOnChar_cons_sep, hsp]
        simpa [joinSep] using ih
    · cases hsp : splitOnChar sep rest with
      | nil => exact absurd hsp (splitOnChar_ne_nil sep rest)
      | cons p t =>
        rw [hsp] at ih
        rw [splitOnChar_cons_ne sep c rest hc, hsp]
        cases t with
        | nil =>
          simp only [joinSep] at ih ⊢
          simp [ih]
        | cons q ts =>
          simp only [joinSep] at ih ⊢
          simp [← ih]

/-- A character of a joined list is in some fragment or is the separator. -/
theorem mem_joinSep (sep c : Char) :
    (ps : List Str) → c ∈ joinSep sep ps → (∃ p, p ∈ ps ∧ c ∈ p) ∨ c = sep
  | [], h => by simp [joinSep] at h
  | [p], h => Or.inl ⟨p, by simp, by simpa [joinSep] using h⟩
  | p :: q :: t, h => by
    simp only [joinSep, List.mem_append, List.mem_cons] at h
    rcases h with h | h | h
    · exact Or.inl ⟨p, by simp, h⟩
    · exact Or.inr h
    · rcases mem_joinSep sep c (q :: t) h with ⟨r, hr, hcr⟩ | h'
      · exact Or.inl ⟨r, by simp [List.mem_cons] at hr ⊢; tauto, hcr⟩
      · exact Or.inr h'

/-- hasChar agrees with list membership. -/
theorem hasChar_true_iff (c : Char) (l : Str) : hasChar c l = true ↔ c ∈ l := by
  induction l with
  | nil => simp [hasChar]
  | cons x rest ih =>
    simp only [hasChar, Bool.or_eq_true, decide_eq_true_eq, List.mem_cons, ih]
    exact or_congr_left eq_comm

/-- hasChar returning false means the character does not occur. -/
theorem hasChar_false_iff (c : Char) (l : Str) : hasChar c l = false ↔ c ∉ l := by
  rw [← hasChar_true_iff]
  cases hasChar c l <;> simp

/-- A decimal digit is none of the three separator characters used here. -/
theorem isDigit_excl (c : Char) (h : c.isDigit = true) :
    c ≠ '.' ∧ c ≠ '/' ∧ c ≠ ':' := by
  refine ⟨fun he => ?_, fun he => ?_, fun he => ?_⟩ <;>
    (subst he; exact absurd h (by decide))

/-- Every character of an accepted IPv4 octet is a decimal digit. -/
theorem ipv4PartOk_all_digit (p : Str) (h : ipv4PartOk p = true) :
    ∀ c ∈ p, c.isDigit = true := by
  have h' := h
  simp only [ipv4PartOk, digitsLenOk, Bool.and_eq_true, decide_eq_true_eq,
    List.all_eq_true] at h'
  exact fun c hc => h'.1.2 c hc

/-- Every character of a string accepted by isIpv4 is a digit or a dot. -/
theorem isIpv4_char_class (l : Str) (h : isIpv4 l = true) :
    ∀ c ∈ l, c.isDigit = true ∨ c = '.' := by
  intro c hc
  rw [← joinSep_splitOnChar '.' l] at hc
  rcases mem_joinSep '.' c (splitOnChar '.' l) hc with ⟨p, hp, hcp⟩ | he
  · left
    simp only [isIpv4, Bool.and_eq_true, List.all_eq_true] at h
    exact ipv4PartOk_all_digit p (h.2 p hp) c hcp
  · right
    exact he

/-- A string accepted by isIpv4 contains no colon. -/
theorem isIpv4_no_colon (l : Str) (h : isIpv4 l = true) : ':' ∉ l := by
  intro hc
  rcases isIpv4_char_class l h ':' hc with hd | he
  · exact absurd hd (by decide)
  · exact absurd he (by decide)

/-- A string accepted by isIpv4 contains no slash. -/
theorem isIpv4_no_slash (l : Str) (h : isIpv4 l = true) : '/' ∉ l := by
  intro hc
  rcases isIpv4_char_class l h '/' hc with hd | he
  · exact absurd hd (by decide)
  · exact absurd he (by decide)

/-- A string accepted by isIpv6 contains a colon: otherwise the split would
have a single fragment, under the minimum of three. -/
theorem isIpv6_has_colon (l : Str) (h : isIpv6 l = true) : ':' ∈ l := by
  by_contra hn
  have hs : splitOnChar ':' l = [l] := splitOnChar_of_not_mem ':' l hn
  unfold isIpv6 at h
  rw [hs] at h
  simp at h

/-- Unpacking of isValidIpv4Cidr into its four conjuncts. -/
theorem isValidIpv4Cidr_unpack (s : Str) (h : isValidIpv4Cidr s = true) :
    ∃ mask, (splitOnChar '/' s).get? 1 = some mask ∧
      (splitOnChar '/' s).headD [] ≠ [] ∧
      isIpv4 ((splitOnChar '/' s).headD []) = true ∧
      digitsLenOk 2 mask = true ∧ strNum mask ≤ 32 := by
  unfold isValidIpv4Cidr at h
  cases hm : (splitOnChar '/' s).get? 1 with
  | none => rw [hm] at h; simp at h
  | some mask =>
    rw [hm] at h
    simp only [Bool.and_eq_true, decide_eq_true_eq] at h
    exact ⟨mask, rfl, h.1.1.1, h.1.1.2, h.1.2, h.2⟩

/-- Unpacking of isValidIpv6Cidr into its four conjuncts. -/
theorem isValidIpv6Cidr_unpack (s : Str) (h : isValidIpv6Cidr s = true) :
    ∃ mask, (splitOnChar '/' s).get? 1 = some mask ∧
      (splitOnChar '/' s).headD [] ≠ [] ∧
      isIpv6 ((splitOnChar '/' s).headD []) = true ∧
      digitsLenOk 3 mask = true ∧ strNum mask ≤ 128 := by
  unfold isValidIpv6Cidr at h
  cases hm : (splitOnChar '/' s).get? 1 with
  | none => rw [hm] at h; simp at h
  | some mask =>
    rw [hm] at h
    simp only [Bool.and_eq_true, decide_eq_true_eq] at h
    exact ⟨mask, rfl, h.1.1.1, h.1.1.2, h.1.2, h.2⟩

/-- Packing of isValidIpv4Cidr for a slash-free address and mask. -/
theorem isValidIpv4Cidr_build (ip mask : Str) (h4 : isIpv4 ip = true)
    (hs : '/' ∉ ip) (hm : '/' ∉ mask)
    (hd : digitsLenOk 2 mask = true) (hn : strNum mask ≤ 32) :
    isValidIpv4Cidr (ip ++ '/' :: mask) = true := by
  have hip : ip ≠ [] := by
    intro he
    subst he
    exact absurd h4 (by decide)
  have hsplit : splitOnChar '/' (ip ++ '/' :: mask) = ip :: [mask] := by
    rw [splitOnChar_append_cons '/' ip mask hs, splitOnChar_of_not_mem '/' mask hm]
  unfold isValidIpv4Cidr
  rw [hsplit]
  simp [hip, h4, hd, hn]

/-- Packing of isValidIpv6Cidr for a slash-free address and mask. -/
theorem isValidIpv6Cidr_build (ip mask : Str) (h6 : isIpv6 ip = true)
    (hs : '/' ∉ ip) (hm : '/' ∉ mask)
    (hd : digitsLenOk 3 mask = true) (hn : strNum mask ≤ 128) :
    isValidIpv6Cidr (ip ++ '/' :: mask) = true := by
  have hip : ip ≠ [] := by
    intro he
    subst he
    exact absurd h6 (by decide)
  have hsplit : splitOnChar '/' (ip ++ '/' :: mask) = ip :: [mask] := by
    rw [splitOnChar_append_cons '/' ip mask hs, splitOnChar_of_not_mem '/' mask hm]
  unfold isValidIpv6Cidr
  rw [hsplit]
  simp [hip, h6, hd, hn]

/-- Claim C1 counterexample: in "1:::2", split on ':' into ["1","","","2"],
the empty part at interior index 2 is not at the start, not at the end, and
not the gap of a lone elision "::" (its left neighbour part is empty too: the
string holds ":::" rather than a plain "::"), yet isIpv6 accepts the string. -/
theorem c1_counterexample :
    (splitOnChar ':' (str ("1:::2"))).getD 2 [] = [] ∧
    0 < 2 ∧ 2 < (splitOnChar ':' (str ("1:::2"))).length - 1 ∧
    (splitOnChar ':' (str ("1:::2"))).getD 1 [] = [] ∧
    isIpv6 (str ("1:::2")) = true := by
  decide

/-- Claim C1 amended: isIpv6 enforces no positional restriction on empty
parts: every path of the empty-part branch of the loop ends in continue, so
the per-part check accepts an empty part at every index, and interior empty
parts are constrained only by the separate global rule that more than one
empty part forces exactly one non-overlapping "::" occurrence in the string. -/
theorem c1_empty_part_never_rejected (parts : List Str) (i : Nat)
    (h : parts.getD i [] = []) : ipv6PartAt parts i = true := by
  unfold ipv6PartAt
  rw [h]
  simp

/-- Claim C1 witness: the amended theorem applied at the split of "1:::2" and
its interior empty index 2. -/
theorem c1_witness :
    ipv6PartAt (splitOnChar ':' (str ("1:::2"))) 2 = true :=
  c1_empty_part_never_rejected (splitOnChar ':' (str ("1:::2"))) 2 (by decide)

/-- Claim C2: isValidIpCidr accepts a string iff exactly one of the two family
validations accepts it; the two validators never both accept the same string,
because the address fragment of an accepted IPv4 CIDR consists of digits and
dots only, while isIpv6 demands a colon in the same fragment. -/
theorem c2_exactly_one_family (s : Str) :
    ¬(isValidIpv4Cidr s = true ∧ isValidIpv6Cidr s = true) ∧
    (isValidIpCidr s = true ↔ (isValidIpv4Cidr s = true ∨ isValidIpv6Cidr s = true)) := by
  constructor
  · rintro ⟨h4, h6⟩
    obtain ⟨m4, hm4, hip4, h4ip, hd4, hn4⟩ := isValidIpv4Cidr_unpack s h4
    obtain ⟨m6, hm6, hip6, h6ip, hd6, hn6⟩ := isValidIpv6Cidr_unpack s h6
    exact isIpv4_no_colon _ h4ip (isIpv6_has_colon _ h6ip)
  · simp [isValidIpCidr, Bool.or_eq_true]

/-- Claim C2 witness: the dichotomy at the concrete input "203.0.113.0/24". -/
theorem c2_witness :
    ¬(isValidIpv4Cidr (str ("203.0.113.0/24")) = true ∧
      isValidIpv6Cidr (str ("203.0.113.0/24")) = true) ∧
    (isValidIpCidr (str ("203.0.113.0/24")) = true ↔
      (isValidIpv4Cidr (str ("203.0.113.0/24")) = true ∨
       isValidIpv6Cidr (str ("203.0.113.0/24")) = true)) :=
  c2_exactly_one_family (str ("203.0.113.0/24"))

/-- Claim C5: when the explicit CIDR input is non-empty after trimming and its
trimmed form passes isValidIpCidr, resolveAllowedIpCidr returns exactly that
trimmed CIDR, and the bare-address input is never consulted: the result is the
same for every pair of bare-address inputs. -/
theorem c5_cidr_priority (a b1 b2 : Str) (h1 : trimStr a ≠ [])
    (h2 : isValidIpCidr (trimStr a) = true) :
    resolveAllowedIpCidr a b1 = Except.ok (trimStr a) ∧
    resolveAllowedIpCidr a b1 = resolveAllowedIpCidr a b2 := by
  unfold resolveAllowedIpCidr
  simp [if_pos h1, if_pos h2]

/-- Claim C5 witness: CIDR input "203.0.113.0/24" with two different bare
inputs gives "203.0.113.0/24" both times. -/
theorem c5_witness :
    resolveAllowedIpCidr (str ("203.0.113.0/24")) (str ("9.9.9.9")) =
      Except.ok (trimStr (str ("203.0.113.0/24"))) ∧
    resolveAllowedIpCidr (str ("203.0.113.0/24")) (str ("9.9.9.9")) =
      resolveAllowedIpCidr (str ("203.0.113.0/24")) (str ("2001:db8::1")) :=
  c5_cidr_priority (str ("203.0.113.0/24")) (str ("9.9.9.9")) (str ("2001:db8::1"))
    (by decide) (by decide)

/-- Claim C6: with an empty explicit CIDR input and a slash-free bare input,
resolveAllowedIpCidr appends the family's maximum host mask to the trimmed
bare address: "/32" when isIpv4 accepts it, "/128" when isIpv4 rejects it and
isIpv6 accepts it. -/
theorem c6_bare_address_normalization (a b : Str) (ha : trimStr a = [])
    (hs : hasChar '/' (trimStr b) = false) :
    (isIpv4 (trimStr b) = true →
      resolveAllowedIpCidr a b = Except.ok (trimStr b ++ str ("/32"))) ∧
    (isIpv4 (trimStr b) = false → isIpv6 (trimStr b) = true →
      resolveAllowedIpCidr a b = Except.ok (trimStr b ++ str ("/128"))) := by
  constructor
  · intro h4
    have hbne : trimStr b ≠ [] := by
      intro he
      rw [he] at h4
      exact absurd h4 (by decide)
    unfold resolveAllowedIpCidr
    rw [if_neg (by simp [ha]), if_pos hbne, if_neg (by simp [hs]), if_pos h4]
  · intro h4 h6
    have hbne : trimStr b ≠ [] := by
      intro he
      rw [he] at h6
      exact absurd h6 (by decide)
    unfold resolveAllowedIpCidr
    rw [if_neg (by simp [ha]), if_pos hbne, if_neg (by simp [hs]),
      if_neg (by simp [h4]), if_pos h6]

/-- Claim C6 witness: bare "203.0.113.7" yields "203.0.113.7/32" and bare
"2001:db8::1" yields "2001:db8::1/128", with no CIDR input. -/
theorem c6_witness :
    resolveAllowedIpCidr [] (str ("203.0.113.7")) =
      Except.ok (trimStr (str ("203.0.113.7")) ++ str ("/32")) ∧
    resolveAllowedIpCidr [] (str ("2001:db8::1")) =
      Except.ok (trimStr (str ("2001:db8::1")) ++ str ("/128")) :=
  ⟨(c6_bare_address_normalization [] (str ("203.0.113.7")) (by decide) (by decide)).1
      (by decide),
   (c6_bare_address_normalization [] (str ("2001:db8::1")) (by decide) (by decide)).2
      (by decide) (by decide)⟩

/-- Claim C7: re-validating an already-normalized CIDR (one unchanged by
trimming) that passes isValidIpCidr, supplied as the explicit CIDR input,
returns exactly that string, for every bare-address input. -/
theorem c7_revalidation_idempotent (s b : Str) (ht : trimStr s = s)
    (hv : isValidIpCidr s = true) :
    resolveAllowedIpCidr s b = Except.ok s := by
  have hne : s ≠ [] := by
    intro he
    rw [he] at hv
    exact absurd hv (by decide)
  unfold resolveAllowedIpCidr
  rw [ht, if_pos hne, if_pos hv]

/-- Claim C7 witness: re-validating "203.0.113.7/32" returns it unchanged. -/
theorem c7_witness :
    resolveAllowedIpCidr (str ("203.0.113.7/32")) [] =
      Except.ok (str ("203.0.113.7/32")) :=
  c7_revalidation_idempotent (str ("203.0.113.7/32")) [] (by decide) (by decide)

/-- Every string starts with itself. -/
theorem hasAtFront_refl (t : Str) : hasAtFront t t = true := by
  induction t with
  | nil => rfl
  | cons c rest ih => simp [hasAtFront, ih]

/-- A string occurs in any extension of itself to the left. -/
theorem containsSub_suffix (t : Str) : ∀ pre : Str, containsSub t (pre ++ t) = true := by
  intro pre
  induction pre with
  | nil =>
    cases t with
    | nil => rfl
    | cons c rest => simp [containsSub, hasAtFront_refl]
  | cons x ps ih => simp [containsSub, ih]

/-- hasChar in the negative, as non-membership. -/
theorem not_mem_of_not_hasChar (c : Char) (l : Str) (h : ¬ hasChar c l = true) :
    c ∉ l :=
  fun hm => h ((hasChar_true_iff c l).mpr hm)

/-- A digits-only mask contains no slash. -/
theorem digitsLenOk_no_slash (len : Nat) (p : Str) (h : digitsLenOk len p = true) :
    '/' ∉ p := by
  simp only [digitsLenOk, Bool.and_eq_true, List.all_eq_true, decide_eq_true_eq] at h
  intro hc
  exact (isDigit_excl '/' (h.2 '/' hc)).2.1 rfl

/-- A digits-only mask contains no colon. -/
theorem digitsLenOk_no_colon (len : Nat) (p : Str) (h : digitsLenOk len p = true) :
    ':' ∉ p := by
  simp only [digitsLenOk, Bool.and_eq_true, List.all_eq_true, decide_eq_true_eq] at h
  intro hc
  exact (isDigit_excl ':' (h.2 ':' hc)).2.2 rfl

/-- An accepted IPv4 octet contains neither dot nor slash. -/
theorem ipv4PartOk_no_seps (p : Str) (h : ipv4PartOk p = true) :
    '.' ∉ p ∧ '/' ∉ p := by
  constructor
  · intro hc
    exact (isDigit_excl '.' (ipv4PartOk_all_digit p h '.' hc)).1 rfl
  · intro hc
    exact (isDigit_excl '/' (ipv4PartOk_all_digit p h '/' hc)).2.1 rfl

/-- A character of the first fragment occurs in the joined string. -/
theorem mem_joinSep_head (sep c : Char) (ps : List Str) (hne : ps ≠ [])
    (hc : c ∈ ps.headD []) : c ∈ joinSep sep ps := by
  cases ps with
  | nil => exact absurd rfl hne
  | cons p t =>
    cases t with
    | nil => simpa [joinSep] using hc
    | cons q ts =>
      simp only [joinSep]
      exact List.mem_append_left _ (by simpa using hc)

/-- Appending "/32" to a slash-free address accepted by isIpv4 yields a string
accepted by isValidIpCidr. -/
theorem append32_valid (t : Str) (h4 : isIpv4 t = true) (hs : '/' ∉ t) :
    isValidIpCidr (t ++ str ("/32")) = true := by
  have hb : isValidIpv4Cidr (t ++ '/' :: str ("32")) = true :=
    isValidIpv4Cidr_build t (str ("32")) h4 hs (by decide) (by decide) (by decide)
  unfold isValidIpCidr
  rw [show t ++ str ("/32") = t ++ '/' :: str ("32") from rfl, hb]
  rfl

/-- Appending "/128" to a slash-free address accepted by isIpv6 yields a
string accepted by isValidIpCidr. -/
theorem append128_valid (t : Str) (h6 : isIpv6 t = true) (hs : '/' ∉ t) :
    isValidIpCidr (t ++ str ("/128")) = true := by
  have hb : isValidIpv6Cidr (t ++ '/' :: str ("128")) = true :=
    isValidIpv6Cidr_build t (str ("128")) h6 hs (by decide) (by decide) (by decide)
  unfold isValidIpCidr
  rw [show t ++ str ("/128") = t ++ '/' :: str ("128") from rfl, hb]
  simp

/-- Claim C9: whenever resolveAllowedIpCidr succeeds, the returned string
itself passes isValidIpCidr — the pass-through branches return a string that
was just validated, and the normalization branches append "/32" or "/128" to
a slash-free address accepted by the corresponding family check. -/
theorem c9_output_valid (a b out : Str)
    (h : resolveAllowedIpCidr a b = Except.ok out) :
    isValidIpCidr out = true := by
  unfold resolveAllowedIpCidr at h
  by_cases h1 : trimStr a ≠ []
  · rw [if_pos h1] at h
    by_cases h2 : isValidIpCidr (trimStr a) = true
    · rw [if_pos h2] at h
      obtain rfl : trimStr a = out := Except.ok.inj h
      exact h2
    · rw [if_neg h2] at h
      exact absurd h (by simp)
  · rw [if_neg h1] at h
    by_cases hb : trimStr b ≠ []
    · rw [if_pos hb] at h
      by_cases h3 : hasChar '/' (trimStr b) = true
      · rw [if_pos h3] at h
        by_cases h4 : isValidIpCidr (trimStr b) = true
        · rw [if_pos h4] at h
          obtain rfl : trimStr b = out := Except.ok.inj h
          exact h4
        · rw [if_neg h4] at h
          exact absurd h (by simp)
      · rw [if_neg h3] at h
        have hns : '/' ∉ trimStr b := not_mem_of_not_hasChar '/' (trimStr b) h3
        by_cases h5 : isIpv4 (trimStr b) = true
        · rw [if_pos h5] at h
          obtain rfl : trimStr b ++ str ("/32") = out := Except.ok.inj h
          exact append32_valid (trimStr b) h5 hns
        · rw [if_neg h5] at h
          by_cases h6 : isIpv6 (trimStr b) = true
          · rw [if_pos h6] at h
            obtain rfl : trimStr b ++ str ("/128") = out := Except.ok.inj h
            exact append128_valid (trimStr b) h6 hns
          · rw [if_neg h6] at h
            exact absurd h (by simp)
    · rw [if_neg hb] at h
      exact absurd h (by simp)

/-- Claim C9 witness: the normalized output of the bare input "203.0.113.7" is
accepted by the validator. -/
theorem c9_witness : isValidIpCidr (str ("203.0.113.7/32")) = true :=
  c9_output_valid [] (str ("203.0.113.7")) (str ("203.0.113.7/32")) rfl

/-- Claim C8: a dotted quad of four octets each matching the per-octet check
(1-3 digits, value at most 255), followed by '/' and a mask of 1-2 digits with
value at most 32, is accepted by isValidIpCidr. -/
theorem c8_valid_ipv4_cidr (p1 p2 p3 p4 m : Str)
    (h1 : ipv4PartOk p1 = true) (h2 : ipv4PartOk p2 = true)
    (h3 : ipv4PartOk p3 = true) (h4 : ipv4PartOk p4 = true)
    (hd : digitsLenOk 2 m = true) (hn : strNum m ≤ 32) :
    isValidIpCidr ((p1 ++ '.' :: (p2 ++ '.' :: (p3 ++ '.' :: p4))) ++ '/' :: m) = true := by
  have hnd1 := ipv4PartOk_no_seps p1 h1
  have hnd2 := ipv4PartOk_no_seps p2 h2
  have hnd3 := ipv4PartOk_no_seps p3 h3
  have hnd4 := ipv4PartOk_no_seps p4 h4
  have hsplit : splitOnChar '.' (p1 ++ '.' :: (p2 ++ '.' :: (p3 ++ '.' :: p4))) =
      [p1, p2, p3, p4] := by
    rw [splitOnChar_append_cons '.' p1 _ hnd1.1,
        splitOnChar_append_cons '.' p2 _ hnd2.1,
        splitOnChar_append_cons '.' p3 _ hnd3.1,
        splitOnChar_of_not_mem '.' p4 hnd4.1]
  have hA : isIpv4 (p1 ++ '.' :: (p2 ++ '.' :: (p3 ++ '.' :: p4))) = true := by
    unfold isIpv4
    rw [hsplit]
    simp [h1, h2, h3, h4]
  have hslash : '/' ∉ (p1 ++ '.' :: (p2 ++ '.' :: (p3 ++ '.' :: p4))) :=
    isIpv4_no_slash _ hA
  have hmns : '/' ∉ m := digitsLenOk_no_slash 2 m hd
  have hb := isValidIpv4Cidr_build _ m hA hslash hmns hd hn
  unfold isValidIpCidr
  rw [hb]
  rfl

/-- Claim C8 witness: the dotted quad 203.0.113.0 with mask 24. -/
theorem c8_witness :
    isValidIpCidr ((str ("203") ++ '.' :: (str ("0") ++ '.' :: (str ("113") ++ '.' :: str ("0")))) ++ '/' :: str ("24")) = true :=
  c8_valid_ipv4_cidr (str ("203")) (str ("0")) (str ("113")) (str ("0")) (str ("24"))
    (by decide) (by decide) (by decide) (by decide) (by decide) (by decide)

/-- Claim C10 counterexample: "1.2.3.4/32/:" is accepted by isValidIpv4Cidr
(JavaScript destructuring ignores the third '/'-fragment ":"), yet it contains
a colon and getIpAddressVersion therefore tags it 'IPV6'. -/
theorem c10_counterexample :
    isValidIpv4Cidr (str ("1.2.3.4/32/:")) = true ∧
    hasChar ':' (str ("1.2.3.4/32/:")) = true ∧
    getIpAddressVersion (str ("1.2.3.4/32/:")) = IpVersion.v6 := by
  decide

/-- Claim C10 amended: every string accepted by isValidIpv4Cidr whose split on
'/' has exactly two fragments (no ignored extra fragments) is colon-free and
tagged 'IPV4' by getIpAddressVersion, and every string accepted by
isValidIpv6Cidr contains a colon and is tagged 'IPV6'. -/
theorem c10_family_tag_consistency :
    (∀ s : Str, isValidIpv4Cidr s = true → (splitOnChar '/' s).length = 2 →
      hasChar ':' s = false ∧ getIpAddressVersion s = IpVersion.v4) ∧
    (∀ s : Str, isValidIpv6Cidr s = true →
      hasChar ':' s = true ∧ getIpAddressVersion s = IpVersion.v6) := by
  constructor
  · intro s hv hlen
    obtain ⟨mask, hm, hne, hip, hd, hnum⟩ := isValidIpv4Cidr_unpack s hv
    obtain ⟨x, y, hxy⟩ := List.length_eq_two.mp hlen
    have hx : (splitOnChar '/' s).headD [] = x := by rw [hxy]; rfl
    have hy : mask = y := by
      rw [hxy] at hm
      simpa using hm.symm
    have hsxy : s = x ++ '/' :: y := by
      have hj := joinSep_splitOnChar '/' s
      rw [hxy] at hj
      simpa [joinSep] using hj.symm
    have hipx : isIpv4 x = true := hx ▸ hip
    have hnocolon : ':' ∉ s := by
      rw [hsxy]
      intro hc
      rcases List.mem_append.mp hc with hcx | hcy
      · exact isIpv4_no_colon x hipx hcx
      · rcases List.mem_cons.mp hcy with he | hcy2
        · exact absurd he (by decide)
        · exact digitsLenOk_no_colon 2 y (hy ▸ hd) hcy2
    have hfalse : hasChar ':' s = false := (hasChar_false_iff ':' s).mpr hnocolon
    exact ⟨hfalse, by simp [getIpAddressVersion, hfalse]⟩
  · intro s hv
    obtain ⟨mask, hm, hne, hip, hd, hnum⟩ := isValidIpv6Cidr_unpack s hv
    have hcolon_head : ':' ∈ (splitOnChar '/' s).headD [] := isIpv6_has_colon _ hip
    have hcs : ':' ∈ s := by
      have hmj := mem_joinSep_head '/' ':' (splitOnChar '/' s)
        (splitOnChar_ne_nil '/' s) hcolon_head
      rwa [joinSep_splitOnChar] at hmj
    have htrue : hasChar ':' s = true := (hasChar_true_iff ':' s).mpr hcs
    exact ⟨htrue, by simp [getIpAddressVersion, htrue]⟩

/-- Claim C10 witness: the two halves of the amended statement at the concrete
validated inputs "203.0.113.0/24" and "2001:db8::1/128". -/
theorem c10_witness :
    (hasChar ':' (str ("203.0.113.0/24")) = false ∧
      getIpAddressVersion (str ("203.0.113.0/24")) = IpVersion.v4) ∧
    (hasChar ':' (str ("2001:db8::1/128")) = true ∧
      getIpAddressVersion (str ("2001:db8::1/128")) = IpVersion.v6) :=
  ⟨c10_family_tag_consistency.1 (str ("203.0.113.0/24")) (by decide) (by decide),
   c10_family_tag_consistency.2 (str ("2001:db8::1/128")) (by decide)⟩

/-- Claim C4 counterexample: for the input " 999.1.1.1/32 " (with surrounding
spaces) the failure message carries only the trimmed string "999.1.1.1/32",
not the original offending input, which occurs nowhere in the message. -/
theorem c4_counterexample :
    resolveAllowedIpCidr (str (" 999.1.1.1/32 ")) [] =
      Except.error (msgMalformedCidr (str ("999.1.1.1/32"))) ∧
    containsSub (str (" 999.1.1.1/32 "))
      (msgMalformedCidr (str ("999.1.1.1/32"))) = false :=
  ⟨rfl, by decide⟩

/-- Claim C4 amended: every failure of resolveAllowedIpCidr carries the
trimmed offending input in its message: the trimmed explicit CIDR input when
that was non-empty, otherwise the trimmed bare input when that was non-empty
(the missing-configuration failure has no offending input to carry). -/
theorem c4_errors_carry_trimmed_input (a b msg : Str)
    (h : resolveAllowedIpCidr a b = Except.error msg) :
    (trimStr a ≠ [] → containsSub (trimStr a) msg = true) ∧
    (trimStr a = [] → trimStr b ≠ [] → containsSub (trimStr b) msg = true) := by
  unfold resolveAllowedIpCidr at h
  by_cases h1 : trimStr a ≠ []
  · rw [if_pos h1] at h
    by_cases h2 : isValidIpCidr (trimStr a) = true
    · rw [if_pos h2] at h
      exact absurd h (by simp)
    · rw [if_neg h2] at h
      obtain rfl : msgMalformedCidr (trimStr a) = msg := Except.error.inj h
      refine ⟨fun _ => ?_, fun he => absurd he h1⟩
      unfold msgMalformedCidr
      exact containsSub_suffix (trimStr a) _
  · rw [if_neg h1] at h
    have ha0 : trimStr a = [] := by
      by_contra hx
      exact h1 hx
    by_cases hb : trimStr b ≠ []
    · rw [if_pos hb] at h
      by_cases h3 : hasChar '/' (trimStr b) = true
      · rw [if_pos h3] at h
        by_cases h4 : isValidIpCidr (trimStr b) = true
        · rw [if_pos h4] at h
          exact absurd h (by simp)
        · rw [if_neg h4] at h
          obtain rfl : msgMalformedIpAsCidr (trimStr b) = msg := Except.error.inj h
          refine ⟨fun hx => absurd hx h1, fun _ _ => ?_⟩
          unfold msgMalformedIpAsCidr
          exact containsSub_suffix (trimStr b) _
      · rw [if_neg h3] at h
        by_cases h5 : isIpv4 (trimStr b) = true
        · rw [if_pos h5] at h
          exact absurd h (by simp)
        · rw [if_neg h5] at h
          by_cases h6 : isIpv6 (trimStr b) = true
          · rw [if_pos h6] at h
            exact absurd h (by simp)
          · rw [if_neg h6] at h
            obtain rfl : msgMalformedAddress (trimStr b) = msg := Except.error.inj h
            refine ⟨fun hx => absurd hx h1, fun _ _ => ?_⟩
            unfold msgMalformedAddress
            exact containsSub_suffix (trimStr b) _
    · rw [if_neg hb] at h
      obtain rfl : msgMissingConfig = msg := Except.error.inj h
      exact ⟨fun hx => absurd hx h1, fun _ hbx => absurd hbx hb⟩

/-- Claim C4 witness: the amended theorem at the malformed explicit input
"bad" whose trimmed form appears in the resulting message. -/
theorem c4_witness :
    (trimStr (str ("bad")) ≠ [] →
      containsSub (trimStr (str ("bad"))) (msgMalformedCidr (str ("bad"))) = true) ∧
    (trimStr (str ("bad")) = [] → trimStr [] ≠ [] →
      containsSub (trimStr []) (msgMalformedCidr (str ("bad"))) = true) :=
  c4_errors_carry_trimmed_input (str ("bad")) [] (msgMalformedCidr (str ("bad"))) rfl

/-- Claim C3 counterexample: for a request body that fails to parse as JSON
the handler does return status 400, but with an empty body that does not list
the allowed values (it does not even contain "vanilla"). -/
theorem c3_counterexample :
    handler none = HandlerResponse.mk 400 [] ∧
    containsSub (str ("vanilla")) [] = false :=
  ⟨rfl, by decide⟩

/-- Claim C3 amended: an unparsable body yields 400 with an empty body; a body
parsing to JSON null yields 500 with the generic error payload (property
access on null throws into the outer catch); otherwise a missing, falsy or
not-enumerated flavor yields 400 with the payload listing the allowed values,
and an enumerated flavor yields 200 with the formatted confirmation message. -/
theorem c3_handler_responses :
    handler none = HandlerResponse.mk 400 [] ∧
    handler (some Json.null) = HandlerResponse.mk 500 serverErrorBody ∧
    (∀ (body : Json) (fl : Option Json), flavorGet body = Except.ok fl →
      (truthy fl && flavorIncluded fl) = false →
      handler (some body) = HandlerResponse.mk 400 invalidFlavorBody) ∧
    (∀ (body : Json) (s : Str), flavorGet body = Except.ok (some (Json.strv s)) →
      allowedFlavors.contains s = true →
      handler (some body) = HandlerResponse.mk 200 (okBody s)) := by
  refine ⟨rfl, rfl, ?_, ?_⟩
  · intro body fl hfg hff
    simp [handler, hfg, hff]
  · intro body s hfg hc
    have hs : s ≠ [] := by
      intro he
      subst he
      exact absurd hc (by decide)
    simp [handler, hfg, truthy, flavorIncluded, hc, hs, flavorStrOf]
    exact List.mem_of_elem_eq_true hc

/-- Claim C3 witness: an in-enumeration flavor gets the 200 confirmation. -/
theorem c3_witness :
    handler (some (Json.obj [(str ("flavor"), Json.strv (str ("mint")))])) =
      HandlerResponse.mk 200 (okBody (str ("mint"))) :=
  c3_handler_responses.2.2.2 (Json.obj [(str ("flavor"), Json.strv (str ("mint")))])
    (str ("mint")) rfl (by decide)
